import Mathlib

/-!
Verification of the rblox bytecode compiler and virtual machine
(`src/rblox` in the repository) against its natural-language specification.

The Rust sources are shallowly embedded: pure functions become Lean
functions, in-place mutation becomes explicit state passing, `Rc<T>`
sharing of *immutable* data is embedded by value, and `Rc<RefCell<T>>`
sharing of *mutable* data (closures' upvalues) is embedded as indices
into a registry list held in the module, mirroring how the VM itself
hands out registry indices.  Rust panics (`unwrap`, `unreachable!`,
`assert!`) are embedded as an explicit `crash` outcome.  Loops are
embedded either by structural recursion or with an explicit fuel
parameter.

The `f64` number type is embedded symbolically (`F64` below): NaN and
the two infinities are explicit constructors and finite values are
exact rationals.  All IEEE-754 special-value rules (the only ones any
settled claim depends on) are modelled exactly; rounding of finite
results is not modelled (finite arithmetic is exact).
-/

set_option linter.unusedVariables false

namespace RLox

/-! ## Span (src/rblox/src/common/debug/span.rs)

A `Span(lo, hi, line)` identifies the byte range `[lo, hi)` and the
line on which it begins. -/

structure Span where
  lo : Nat
  hi : Nat
  line : Nat
deriving DecidableEq

/-- `Span::new` normalizes `lo ≤ hi`. -/
def Span.new (lo hi : Nat) (line : Nat) : Span :=
  ⟨min lo hi, max lo hi, line⟩

/-- `Span::to`: join two spans. -/
def Span.to (a b : Span) : Span :=
  Span.new (min a.lo b.lo) (max a.hi b.hi) (min a.line b.line)

/-- `Span::dummy` (test helper in the source). -/
def Span.dummy (line : Nat) : Span := Span.new 0 0 line

/-- `Span::updated`: shift the bounds; the source `assert!`s that the new
bounds are valid, embedded as `none`. -/
def Span.updated (s : Span) (lo hi : Int) : Option Span :=
  let lo' : Int := (s.lo : Int) + lo
  let hi' : Int := (s.hi : Int) + hi
  if lo' < 0 then none
  else if hi' < lo' then none
  else some (Span.new lo'.toNat hi'.toNat s.line)

/-! ## IEEE-754 binary64, modelled symbolically -/

/-- Model of Rust `f64`: explicit NaN and infinities, exact rational
finite values (`+0.0` and `-0.0` are identified). -/
inductive F64 where
  | num (q : Rat)
  | inf (neg : Bool)
  | nan
deriving DecidableEq

/-- Rust `==` on `f64`: NaN compares unequal to everything. -/
def F64.feq : F64 → F64 → Bool
  | .num a, .num b => a == b
  | .inf a, .inf b => a == b
  | _, _ => false

/-- Rust `<` on `f64`: NaN is incomparable. -/
def F64.flt : F64 → F64 → Bool
  | .num a, .num b => a < b
  | .num _, .inf s => !s
  | .inf s, .num _ => s
  | .inf a, .inf b => a && !b
  | _, _ => false

/-- Rust `>` on `f64`. -/
def F64.fgt (a b : F64) : Bool := F64.flt b a

/-- `f64` negation. -/
def F64.fneg : F64 → F64
  | .num q => .num (-q)
  | .inf s => .inf (!s)
  | .nan => .nan

/-- `f64` addition (finite results exact). -/
def F64.fadd : F64 → F64 → F64
  | .nan, _ => .nan
  | _, .nan => .nan
  | .inf a, .inf b => if a = b then .inf a else .nan
  | .inf a, .num _ => .inf a
  | .num _, .inf b => .inf b
  | .num a, .num b => .num (a + b)

/-- `f64` subtraction. -/
def F64.fsub (a b : F64) : F64 := F64.fadd a (F64.fneg b)

/-- `f64` multiplication (finite results exact). -/
def F64.fmul : F64 → F64 → F64
  | .nan, _ => .nan
  | _, .nan => .nan
  | .inf a, .inf b => .inf (xor a b)
  | .inf a, .num q => if q = 0 then .nan else .inf (xor a (decide (q < 0)))
  | .num q, .inf b => if q = 0 then .nan else .inf (xor b (decide (q < 0)))
  | .num a, .num b => .num (a * b)

/-- `f64` division.  The special rules are exactly IEEE-754: division of
a nonzero finite value by zero gives a signed infinity, `0/0` and
`NaN/x` give NaN, `x/inf` gives zero. -/
def F64.fdiv : F64 → F64 → F64
  | .nan, _ => .nan
  | _, .nan => .nan
  | .inf _, .inf _ => .nan
  | .inf s, .num q => if q < 0 then .inf (!s) else .inf s
  | .num _, .inf _ => .num 0
  | .num a, .num b =>
      if b = 0 then (if a = 0 then .nan else .inf (decide (a < 0)))
      else .num (a / b)

/-- An infinity or NaN (the possible results of dividing by `0.0`). -/
def F64.isInfOrNan : F64 → Bool
  | .num _ => false
  | .inf _ => true
  | .nan => true

/-- Display of an `f64` (modelled: integral values print without a
decimal point, matching the source's `floor` test; the exact decimal
rendering of non-integral values is not load-bearing for any claim). -/
def F64.display : F64 → String
  | .num q => if q.den = 1 then toString q.num else toString q
  | .inf s => if s then "-inf" else "inf"
  | .nan => "NaN"

/-! ## Objects and values (src/rblox/src/common/data.rs, value.rs)

`Rc<LoxObject>` is embedded as an allocation identity (`Nat`) paired
with the object contents: `Value.Object id obj` models
`Value::Object(rc)` where `id` is the pointer identity of `rc` and
`obj` its contents.  `Rc` equality (`a == b`) compares contents. -/

inductive LoxObject where
  | Identifier (s : String)
  | Str (s : String)
  | Function (name : String) (idx : Nat)
  | Native (name : String) (idx : Nat)
  | Closure (name : String) (idx : Nat)
deriving DecidableEq

/-- `LoxObject::type_name`. -/
def LoxObject.type_name : LoxObject → String
  | .Identifier _ => "<ident>"
  | .Str _ => "string"
  | .Function _ _ => "<func>"
  | .Closure _ _ => "<func>"
  | .Native _ _ => "<native fn>"

/-- `LoxObject::is_callable`. -/
def LoxObject.is_callable : LoxObject → Bool
  | .Function _ _ => true
  | .Native _ _ => true
  | .Closure _ _ => true
  | _ => false

/-- `LoxObject`'s `Display` impl. -/
def LoxObject.display : LoxObject → String
  | .Identifier s => s
  | .Str s => s
  | .Function name n => "<fn " ++ name ++ " " ++ toString n ++ ">"
  | .Native name _ => "<std " ++ name ++ ">"
  | .Closure name n => "<fn'" ++ name ++ " " ++ toString n ++ ">"

inductive Value where
  | Boolean (b : Bool)
  | Nil
  | Number (x : F64)
  | Object (id : Nat) (obj : LoxObject)
deriving DecidableEq

/-- `Value::type_name`. -/
def Value.type_name : Value → String
  | .Boolean _ => "boolean"
  | .Number _ => "number"
  | .Nil => "nil"
  | .Object _ obj => obj.type_name

/-- `Value::truth`: only `Nil` and `Boolean(false)` are false. -/
def Value.truth : Value → Bool
  | .Boolean b => b
  | .Nil => false
  | _ => true

/-- `Value::equals`: no coercion; objects compare by contents
(`Rc<LoxObject>`'s `PartialEq` delegates to `LoxObject`). -/
def Value.equals : Value → Value → Bool
  | .Boolean a, .Boolean b => a == b
  | .Number a, .Number b => F64.feq a b
  | .Nil, .Nil => true
  | .Object _ a, .Object _ b => a == b
  | _, _ => false

/-- The `impl Not for Value` (value.rs lines 102–111).  Note the source
special-cases `Nil` to `false` instead of negating its truth value. -/
def Value.lognot : Value → Bool
  | .Nil => false
  | v => !v.truth

/-- The `impl Neg for Value`; the non-number case is `unreachable!` in
the source (the VM's `Negate` branch only calls it on numbers) and is
embedded as the identity. -/
def Value.neg : Value → Value
  | .Number x => .Number (F64.fneg x)
  | v => v

/-- `Value`'s `Display` impl (via its `Debug` impl for non-objects). -/
def Value.display : Value → String
  | .Boolean b => if b then "true" else "false"
  | .Nil => "nil"
  | .Number x => x.display
  | .Object _ obj => obj.display

/-- `Value::copy`: a literal copy / pointer clone; semantically the
identity in this embedding. -/
def Value.copy (v : Value) : Value := v

/-! ## Instruction set and chunks (src/rblox/src/common/opcode.rs, chunk.rs) -/

inductive Ins where
  | Constant (v : Value)
  | True
  | False
  | Nil
  | Add
  | Subtract
  | Multiply
  | Divide
  | Negate
  | Not
  | Equal
  | Greater
  | Less
  | DefGlobal (name : String)
  | GetGlobal (name : String)
  | SetGlobal (name : String)
  | GetLocal (slot : Nat)
  | SetLocal (slot : Nat)
  | GetUpval (slot : Nat)
  | SetUpval (slot : Nat)
  | Call (args : Nat)
  | Closure (n : Nat) (upvals : List (Bool × Nat))
  | Jump (offset : Int)
  | JumpIfFalse (offset : Int)
  | Print
  | Pop
  | PopN (n : Nat)
  /-- Modelled from the spec: the `CloseUpval` variant (§4.D "stack
  discipline"); `vm/mod.rs` and `compiler/mod.rs` both use it, but the
  copy of `opcode.rs` under `src/` is an older revision without it. -/
  | CloseUpval
  | Return
deriving DecidableEq

/-- `impl From<f64> for Ins`. -/
def Ins.ofF64 (x : F64) : Ins := .Constant (.Number x)

/-- `impl From<LoxObject> for Ins`: `Constant(Value::Object(Rc::new(obj)))`.
The fresh `Rc` allocation gets identity `0` here; chunk-constant identities
are never compared (the VM re-interns string constants on push). -/
def Ins.ofLoxObject (obj : LoxObject) : Ins := .Constant (.Object 0 obj)

/-- A chunk: parallel instruction and span arrays. -/
structure Chunk where
  name : String
  code : List Ins
  spans : List Span
deriving DecidableEq

/-- `Chunk::new`. -/
def Chunk.new (name : String) : Chunk := ⟨name, [], []⟩

/-- `Chunk::write`: append to both vectors. -/
def Chunk.write (c : Chunk) (ins : Ins) (span : Span) : Chunk :=
  { c with code := c.code ++ [ins], spans := c.spans ++ [span] }

/-- `Chunk::len`. -/
def Chunk.len (c : Chunk) : Nat := c.code.length

/-- `Chunk::get`: `None` when the offset is at or past the end, else the
instruction/span pair at that offset. -/
def Chunk.get (c : Chunk) (offset : Nat) : Option (Ins × Span) :=
  if offset ≥ c.len then none
  else
    match c.code.get? offset, c.spans.get? offset with
    | some i, some s => some (i, s)
    | _, _ => none

/-! ## Error types

`ErrorLevel` and the current `RuntimeError` are modelled from the spec:
the copies of `common/error.rs` and `vm/error.rs` under `src/` are older
revisions (they lack the `Warning` level and several variants that
`vm/mod.rs` and the parser construct). -/

/-- Modelled from the spec: diagnostic levels `Info < Warning < Error`
(spec §4.A; `src/common/error.rs` is an older revision with `_Warning`). -/
inductive ErrorLevel where
  | Info
  | Warning
  | Error
deriving DecidableEq

def ErrorLevel.toNat : ErrorLevel → Nat
  | .Info => 0
  | .Warning => 1
  | .Error => 2

/-- The derived `PartialOrd`'s `>` on levels. -/
def ErrorLevel.gt (a b : ErrorLevel) : Bool := b.toNat < a.toNat

/-- `ScanError` (src/rblox/src/compiler/scanner/error.rs). -/
inductive ScanError where
  | UnexpectedChar (c : Char)
  | UnterminatedString
  | UnterminatedComment
  | InvalidNumberLiteral
deriving DecidableEq

/-- Modelled from the spec and the scanner tests: the token kinds
(`compiler/scanner/token.rs` is not under `src/`).  Rust variant names
are kept, with keyword variants suffixed `Kw` where the bare name is a
Lean keyword, and `String` renamed `Str`. -/
inductive TokenType where
  | LeftParen | RightParen | LeftBrace | RightBrace
  | Semicolon | Comma | Dot
  | Bang | BangEqual | Equal | EqualEqual
  | Greater | GreaterEqual | Less | LessEqual
  | Plus | Minus | Star | Slash
  | Identifier (name : String)
  | Str (s : String)
  | Number (x : F64)
  | AndKw | ClassKw | ElseKw | FalseKw | FunKw | ForKw | IfKw | NilKw | OrKw
  | PrintKw | ReturnKw | SuperKw | ThisKw | TrueKw | VarKw | WhileKw
  | Whitespace (s : String)
  | Comment (s : String)
  | BlockComment (s : String) (line : Nat)
  | EOF
  | Error (e : ScanError)
  | Dummy
deriving DecidableEq

/-- Modelled from the spec: the reserved-word table (`TokenType::from`). -/
def TokenType.ofIdent (name : String) : TokenType :=
  if name = "and" then .AndKw
  else if name = "class" then .ClassKw
  else if name = "else" then .ElseKw
  else if name = "false" then .FalseKw
  else if name = "fun" then .FunKw
  else if name = "for" then .ForKw
  else if name = "if" then .IfKw
  else if name = "nil" then .NilKw
  else if name = "or" then .OrKw
  else if name = "print" then .PrintKw
  else if name = "return" then .ReturnKw
  else if name = "super" then .SuperKw
  else if name = "this" then .ThisKw
  else if name = "true" then .TrueKw
  else if name = "var" then .VarKw
  else if name = "while" then .WhileKw
  else .Identifier name

/-- Rust `mem::discriminant` comparison on token kinds (`Parser::is`). -/
def TokenType.sameKind : TokenType → TokenType → Bool
  | .Identifier _, .Identifier _ => true
  | .Str _, .Str _ => true
  | .Number _, .Number _ => true
  | .Whitespace _, .Whitespace _ => true
  | .Comment _, .Comment _ => true
  | .BlockComment _ _, .BlockComment _ _ => true
  | .Error _, .Error _ => true
  | a, b => a == b

structure Token where
  kind : TokenType
  span : Span
deriving DecidableEq

/-- `Token::dummy`. -/
def Token.dummy : Token := ⟨.Dummy, Span.new 0 0 0⟩

/-- `ParseError` (src/rblox/src/compiler/parser/error.rs); the general
variant `ParseError::Error` is embedded as `perror`. -/
inductive ParseError where
  | perror (level : ErrorLevel) (message : String) (span : Span)
  | ScanErr (error : ScanError) (span : Span)
  | UnexpectedToken (message : String) (offending : Token) (expected : Option TokenType)
  | InvalidJump (message : String) (span : Span)
  | StackOverflow (message : String) (span : Span)
  | DetectedLambda
deriving DecidableEq

/-- `ParseError::get_level` (the `LoxError` impl): only the general
variant carries a level, everything else is `Error`. -/
def ParseError.get_level : ParseError → ErrorLevel
  | .perror level _ _ => level
  | _ => .Error

/-- Modelled from the spec: the current `RuntimeError`
(`src/vm/error.rs` is an older revision lacking `UndefinedVariable`,
`StackOverflow` and the tuple `ZeroDivision` that `vm/mod.rs`
constructs). -/
inductive RuntimeError where
  | UnsupportedType (message : String) (span : Span) (level : ErrorLevel)
  | UndefinedVariable (name : String) (span : Span)
  | ZeroDivision (span : Span)
  | EmptyStack (span : Span)
  | StackOverflow (span : Span)
deriving DecidableEq

/-- Modelled from the spec: `ZeroDivision` is special-cased as a
Warning (§7); other runtime errors report their own/Error level. -/
def RuntimeError.get_level : RuntimeError → ErrorLevel
  | .UnsupportedType _ _ level => level
  | .ZeroDivision _ => .Warning
  | _ => .Error

/-- `ErrorType` (the outcome kind reported by `VM::run`). -/
inductive ErrorType where
  | Error
  | CompileError
  | RuntimeErr
deriving DecidableEq

/-! ## Scanner (src/rblox/src/compiler/scanner.rs)

The `Peekable<CharIndices>` iterator is embedded as a list of
position/character pairs.  Positions are character indices; they agree
with the source's byte indices on ASCII input (all concrete inputs used
below are ASCII).  The sentinel character `'\0'` is `'\u0000'`.
Source `while` loops are embedded with a fuel argument; every call
below passes fuel that exceeds the remaining input length, so the
fuel-exhaustion branch is never taken on the evaluated inputs. -/

def nulChar : Char := Char.ofNat 0

/-- Modelled from the spec: `is_valid_identifier_start`
(`compiler/scanner/identifier.rs` is not under `src/`):
`[A-Za-z_]`. -/
def is_valid_identifier_start (c : Char) : Bool :=
  c.isAlpha || c = '_'

/-- Modelled from the spec: `is_valid_identifier_tail`:
`[A-Za-z_0-9]`. -/
def is_valid_identifier_tail (c : Char) : Bool :=
  is_valid_identifier_start c || c.isDigit

/-- Rust `char::is_ascii_whitespace`. -/
def isAsciiWhitespace (c : Char) : Bool :=
  c = ' ' || c = '\t' || c = '\n' || c = Char.ofNat 12 || c = '\r'

structure Scanner where
  srcLen : Nat
  src : List Char
  chars : List (Nat × Char)
  current : Nat × Char
  lexeme_start : Nat
  line : Nat
  emitted_eof : Bool
deriving DecidableEq

/-- `Scanner::peek`. -/
def Scanner.peek (s : Scanner) : Nat × Char :=
  s.chars.head?.getD (s.srcLen, nulChar)

/-- `Scanner::advance`: returns the current character and moves the
cursor; past the end the cursor becomes `(src.len(), '\0')`. -/
def Scanner.advance (s : Scanner) : Char × Scanner :=
  let curr := s.current.2
  match s.chars with
  | [] => (curr, { s with current := (s.srcLen, nulChar), chars := [] })
  | c :: rest => (curr, { s with current := c, chars := rest })

/-- `Scanner::new`: set up the iterator and advance once. -/
def Scanner.mkNew (src : String) : Scanner :=
  let cs := src.toList
  let s : Scanner :=
    { srcLen := cs.length
      src := cs
      chars := (List.range cs.length).zip cs
      current := (0, nulChar)
      lexeme_start := 0
      line := 1
      emitted_eof := false }
  (s.advance).2

/-- `Scanner::is_at_end`. -/
def Scanner.is_at_end (s : Scanner) : Bool := s.current.2 = nulChar

/-- `Scanner::take`. -/
def Scanner.take (s : Scanner) (expected : Char) : Bool × Scanner :=
  if s.current.2 ≠ expected then (false, s)
  else (true, (s.advance).2)

/-- `Scanner::take_select`. -/
def Scanner.take_select (s : Scanner) (expected : Char) (a b : TokenType) :
    TokenType × Scanner :=
  let (took, s) := s.take expected
  (if took then a else b, s)

/-- `Scanner::lex_span`. -/
def Scanner.lex_span (s : Scanner) : Span :=
  Span.new s.lexeme_start s.current.1 s.line

/-- `Scanner::lex`: a lexeme slice; the source indexes the source
string with the updated span (its `assert!`s cannot fire on the
scanner's call sites, embedded as the empty string). -/
def Scanner.lex (s : Scanner) (lo hi : Int) : String :=
  match (s.lex_span).updated lo hi with
  | none => ""
  | some sp => String.mk ((s.src.drop sp.lo).take (sp.hi - sp.lo))

/-- `Scanner::consume_until`: advance until the character (left
uncomsumed) or end of input. -/
def Scanner.consume_until : Nat → Scanner → Char → Scanner
  | 0, s, _ => s
  | fuel + 1, s, ch =>
      if s.current.2 ≠ ch && !s.is_at_end then
        Scanner.consume_until fuel (s.advance).2 ch
      else s

/-- `Scanner::string` (lines 108–115): consume up to the closing quote;
note that, unlike `block_comment`, neither `consume_until` nor anything
else here touches the line counter. -/
def Scanner.string (s : Scanner) : TokenType × Scanner :=
  let s := Scanner.consume_until (s.chars.length + 2) s '"'
  if s.is_at_end then (.Error .UnterminatedString, s)
  else
    let s := (s.advance).2
    (.Str (s.lex 1 (-1)), s)

/-- The loop of `Scanner::comment`. -/
def Scanner.comment (s : Scanner) : TokenType × Scanner :=
  let s := Scanner.consume_until (s.chars.length + 2) s '\n'
  (.Comment (s.lex 2 0), s)

/-- The loop of `Scanner::block_comment`. -/
def Scanner.block_loop : Nat → Scanner → Scanner
  | 0, s => s
  | fuel + 1, s =>
      if s.is_at_end then s
      else
        let (c, s) := s.advance
        if c = '*' then
          let (took, s) := s.take '/'
          if took then s else Scanner.block_loop fuel s
        else if c = '\n' then
          Scanner.block_loop fuel { s with line := s.line + 1 }
        else Scanner.block_loop fuel s

/-- `Scanner::block_comment`. -/
def Scanner.block_comment (s : Scanner) : TokenType × Scanner :=
  let s := (s.advance).2
  let line := s.line
  let s := Scanner.block_loop (s.chars.length + 2) s
  if s.is_at_end then (.Error .UnterminatedComment, s)
  else (.BlockComment (s.lex 2 (-2)) line, s)

/-- `Scanner::comment_or_slash`. -/
def Scanner.comment_or_slash (s : Scanner) : TokenType × Scanner :=
  if s.current.2 = '/' then s.comment
  else if s.current.2 = '*' then s.block_comment
  else (.Slash, s)

/-- Modelled Rust `str::parse::<f64>` restricted to the lexemes the
scanner's `number` produces (`DIGIT+ ('.' DIGIT+)?`): the exact decimal
value (rounding to the nearest double is not modelled). -/
def parseF64 (str : String) : Option F64 :=
  let parts := str.splitOn "."
  let digitsToNat (cs : List Char) : Option Nat :=
    if cs ≠ [] && cs.all Char.isDigit then
      some (cs.foldl (fun acc c => acc * 10 + (c.toNat - 48)) 0)
    else none
  match parts with
  | [ip] =>
      (digitsToNat ip.toList).map fun n => .num (n : Rat)
  | [ip, fp] =>
      match digitsToNat ip.toList, digitsToNat fp.toList with
      | some n, some f =>
          some (.num ((n : Rat) + (f : Rat) / ((10 : Rat) ^ fp.length)))
      | _, _ => none
  | _ => none

/-- The first loop of `Scanner::number` (integer digits). -/
def Scanner.digits_loop : Nat → Scanner → Scanner
  | 0, s => s
  | fuel + 1, s =>
      if (s.current.2).isDigit then Scanner.digits_loop fuel (s.advance).2
      else s

/-- `Scanner::number`. -/
def Scanner.number (s : Scanner) : TokenType × Scanner :=
  let s := Scanner.digits_loop (s.chars.length + 2) s
  let s :=
    if s.current.2 = '.' && ((s.peek).2).isDigit then
      let s := (s.advance).2
      Scanner.digits_loop (s.chars.length + 2) s
    else s
  match parseF64 (s.lex 0 0) with
  | some x => (.Number x, s)
  | none => (.Error .InvalidNumberLiteral, s)

/-- The loop of `Scanner::whitespace`. -/
def Scanner.whitespace_loop : Nat → Scanner → Scanner
  | 0, s => s
  | fuel + 1, s =>
      if isAsciiWhitespace s.current.2 then
        let s := if s.current.2 = '\n' then { s with line := s.line + 1 } else s
        Scanner.whitespace_loop fuel (s.advance).2
      else s

/-- `Scanner::whitespace`. -/
def Scanner.whitespace (s : Scanner) : TokenType × Scanner :=
  let s := Scanner.whitespace_loop (s.chars.length + 2) s
  (.Whitespace (s.lex 0 0), s)

/-- The loop of `Scanner::identifier_or_keyword`: consume
identifier-tail characters. -/
def Scanner.ident_loop : Nat → Scanner → Scanner
  | 0, s => s
  | fuel + 1, s =>
      if is_valid_identifier_tail s.current.2 then
        Scanner.ident_loop fuel (s.advance).2
      else s

/-- `Scanner::identifier_or_keyword`. -/
def Scanner.identifier_or_keyword (s : Scanner) : TokenType × Scanner :=
  let s := Scanner.ident_loop (s.chars.length + 2) s
  let name := s.lex 0 0
  if name = "NaN" then (.Number .nan, s)
  else (TokenType.ofIdent name, s)

/-- `Scanner::scan_token`. -/
def Scanner.scan_token (s : Scanner) : TokenType × Scanner :=
  let (c, s) := s.advance
  if c = nulChar then (.EOF, s)
  else if c = '(' then (.LeftParen, s)
  else if c = ')' then (.RightParen, s)
  else if c = '{' then (.LeftBrace, s)
  else if c = '}' then (.RightBrace, s)
  else if c = ';' then (.Semicolon, s)
  else if c = ',' then (.Comma, s)
  else if c = '.' then (.Dot, s)
  else if c = '!' then s.take_select '=' .BangEqual .Bang
  else if c = '=' then s.take_select '=' .EqualEqual .Equal
  else if c = '>' then s.take_select '=' .GreaterEqual .Greater
  else if c = '<' then s.take_select '=' .LessEqual .Less
  else if c = '+' then (.Plus, s)
  else if c = '-' then (.Minus, s)
  else if c = '*' then (.Star, s)
  else if c = '"' then s.string
  else if c = '/' then s.comment_or_slash
  else if c.isDigit then s.number
  else if c = '\n' then
    let s := { s with line := s.line + 1 }
    s.whitespace
  else if isAsciiWhitespace c then s.whitespace
  else if is_valid_identifier_start c then s.identifier_or_keyword
  else (.Error (.UnexpectedChar c), s)

/-- The skip loop of the scanner's `Iterator::next`: rescan while the
token is whitespace, resetting the lexeme start each time. -/
def Scanner.next_loop : Nat → Scanner → TokenType × Scanner
  | 0, s => (.Dummy, s)
  | fuel + 1, s =>
      let s := { s with lexeme_start := s.current.1 }
      let (kind, s) := s.scan_token
      match kind with
      | .Whitespace _ => Scanner.next_loop fuel s
      | k => (k, s)

/-- The scanner's `Iterator::next`. -/
def Scanner.next (s : Scanner) : Option (Token × Scanner) :=
  if s.emitted_eof then none
  else
    let (kind, s) := Scanner.next_loop (s.chars.length + 3) s
    let s := if kind = .EOF then { s with emitted_eof := true } else s
    let span :=
      match kind with
      | .BlockComment _ line =>
          let sp := s.lex_span
          ⟨sp.lo, sp.hi, line⟩
      | _ => s.lex_span
    some (⟨kind, span⟩, s)

/-- Collect all tokens of a source string (driving `next` to
exhaustion). -/
def Scanner.tokens : Nat → Scanner → List Token
  | 0, _ => []
  | fuel + 1, s =>
      match s.next with
      | none => []
      | some (t, s) => t :: Scanner.tokens fuel s

/-! ## Functions, closures, upvalues, module (src/rblox/src/common/data.rs,
src/rblox/src/compiler/scope.rs) -/

/-- `LoxFunction` (shared read-only via `Rc`, embedded by value). -/
structure LoxFunction where
  name : String
  arity : Nat
  chunk : Chunk
  upvalues : Nat
deriving DecidableEq

/-- `LoxFunction::new`. -/
def LoxFunction.mkNew (name : String) : LoxFunction :=
  ⟨name, 0, Chunk.new name, 0⟩

/-- Modelled from the spec: the current `LoxUpvalue`
(`Open(stack_slot) | Closed(Value)`, §3); the copy of `common/data.rs`
under `src/` is an older revision (a plain `Rc<Value>` wrapper), while
`vm/mod.rs` matches on `Open`/`Closed` and builds both with `From`
impls (`From<usize>` ↦ `Open`, `From<Value>` ↦ `Closed`). -/
inductive LoxUpvalue where
  | Open (slot : Nat)
  | Closed (v : Value)
deriving DecidableEq

/-- `LoxClosure`.  The `fun` field is renamed `func` (`fun` is a Lean
keyword).  `upvalues: Vec<Rc<RefCell<LoxUpvalue>>>` is embedded as the
list of indices of the shared cells in the module's `upvals`
registry. -/
structure LoxClosure where
  func : LoxFunction
  upvalues : List Nat
deriving DecidableEq

/-- `LoxClosure::new` (and `From<LoxFunction>`): no upvalues yet. -/
def LoxClosure.mkNew (f : LoxFunction) : LoxClosure := ⟨f, []⟩

/-- `NativeFunction`: fixed arity plus a host function pointer. -/
structure NativeFunction where
  name : String
  arity : Nat
  fn_ptr : List Value → Except RuntimeError Value

/-- `NativeFunction::call`: validates arity on entry. -/
def NativeFunction.call (f : NativeFunction) (args : List Value) (span : Span) :
    Except RuntimeError Value :=
  if args.length ≠ f.arity then
    .error (.UnsupportedType
      ("Expected " ++ toString f.arity ++ " arguments, but got " ++
        toString args.length)
      span .Error)
  else f.fn_ptr args

/-- The `Module` of `compiler/scope.rs` — plain append-only vectors —
which is the registry type the parser pushes into and whose shape
`vm/mod.rs` reads (`functions`, `natives`, `closures`, `upvals`).
`Rc<RefCell<_>>` registry entries are shared by index. -/
structure Module where
  functions : List LoxFunction
  natives : List NativeFunction
  closures : List LoxClosure
  upvals : List LoxUpvalue

def Module.emptyMod : Module := ⟨[], [], [], []⟩

/-- `impl Push<LoxFunction> for Module`: append, return the index. -/
def Module.pushFunction (m : Module) (f : LoxFunction) : Nat × Module :=
  (m.functions.length, { m with functions := m.functions ++ [f] })

/-- `impl Push<NativeFunction> for Module`. -/
def Module.pushNative (m : Module) (f : NativeFunction) : Nat × Module :=
  (m.natives.length, { m with natives := m.natives ++ [f] })

/-- `impl Push<LoxClosure> for Module`. -/
def Module.pushClosure (m : Module) (c : LoxClosure) : Nat × Module :=
  (m.closures.length, { m with closures := m.closures ++ [c] })

/-- Push a fresh upvalue cell (`self.module.upvals.push(upval.clone())`). -/
def Module.pushUpval (m : Module) (u : LoxUpvalue) : Nat × Module :=
  (m.upvals.length, { m with upvals := m.upvals ++ [u] })

/-! ## Memory manager and string interning (src/rblox/src/gc/mmap.rs)

`Rc` pointer identities are embedded as `Nat`s drawn from a counter;
the interning map sends string contents to the identity of the shared
allocation. -/

structure MemManager where
  objects : List Nat
  strings : List (String × Nat)
  nextId : Nat

def MemManager.emptyMgr : MemManager := ⟨[], [], 1⟩

/-- `MemManager::add_string`: return the registered handle if the
content is already interned, else allocate, intern and register a new
one. -/
def MemManager.add_string (m : MemManager) (str : String) : Nat × MemManager :=
  match m.strings.lookup str with
  | some obj => (obj, m)
  | none =>
      let obj := m.nextId
      (obj, { m with
                strings := (str, obj) :: m.strings
                objects := m.objects ++ [obj]
                nextId := m.nextId + 1 })

/-! ## Compiler (src/rblox/src/compiler/mod.rs, scope.rs)

The `enclosing: Option<Box<RefCell<Compiler>>>` link is used only by
`resolve_upvalue`/`bind`/`unbind` (dead code in this revision of the
parser); it is omitted from the structure and compilers are passed
explicitly where the parser swaps them. -/

/-- `Local` (compiler-only): `depth = -1` marks declared but not yet
initialized. -/
structure Local where
  name : String
  span : Span
  depth : Int
  captured : Bool
deriving DecidableEq

inductive FunctionType where
  | Function
  | Native
  | Script
deriving DecidableEq

structure Compiler where
  function : LoxFunction
  fun_type : FunctionType
  locals : List Local
  scope_depth : Int
  upvalues : List (Bool × Nat)
deriving DecidableEq

/-- `Compiler::LOCALS_MAX`. -/
def LOCALS_MAX : Nat := 512

/-- `Compiler::build`: slot 0 of the locals array is pre-occupied by a
reserved entry carrying the function's own name at depth 0. -/
def Compiler.build (name : String) (fun_type : FunctionType) : Compiler :=
  { function := LoxFunction.mkNew name
    fun_type := fun_type
    locals := [⟨name, Span.new 0 0 0, 0, false⟩]
    scope_depth := 0
    upvalues := [] }

/-- `Compiler::new`. -/
def Compiler.mkNew : Compiler := Compiler.build "<script>" .Script

/-- `Compiler::begin_scope`. -/
def Compiler.begin_scope (c : Compiler) : Compiler :=
  { c with scope_depth := c.scope_depth + 1 }

/-- `Compiler::add_local` (lines 142–158): error out when the locals
array is already at `LOCALS_MAX`, else push an uninitialized local. -/
def Compiler.add_local (c : Compiler) (name : String) (span : Span) :
    Except ParseError Compiler :=
  if c.locals.length = LOCALS_MAX then
    .error (.StackOverflow "Too many local variables in function" span)
  else
    .ok { c with locals := c.locals ++ [⟨name, span, -1, false⟩] }

/-- `Compiler::mark_init`. -/
def Compiler.mark_init (c : Compiler) : Compiler :=
  if c.scope_depth = 0 then c
  else
    match c.locals.getLast? with
    | none => c
    | some l =>
        { c with locals := c.locals.dropLast ++ [{ l with depth := c.scope_depth }] }

/-- `Compiler::emit`: write to the chunk, return the instruction's
offset. -/
def Compiler.emit (c : Compiler) (ins : Ins) (span : Span) : Compiler × Nat :=
  let chunk := c.function.chunk.write ins span
  ({ c with function := { c.function with chunk := chunk } }, chunk.len - 1)

/-- Iterated `add_local`: the effect of `n` successive local-variable
declarations on one compiler (each declaration funnels through
`declare_variable` into exactly one `add_local` call; the
shadow-declaration scan can only add a report-only warning and never
blocks the declaration). -/
def Compiler.addLocals (c : Compiler) : Nat → Except ParseError Compiler
  | 0 => .ok c
  | n + 1 =>
      match c.add_local "x" (Span.new 0 0 0) with
      | .error e => .error e
      | .ok c => c.addLocals n

/-! ## Virtual machine (src/rblox/src/vm/mod.rs)

The VM's mutable state is threaded explicitly.  The two side effects —
`err.report()` and `println!` — are logged into the `reported` and
`output` fields.  A Rust panic (`unwrap` on `None`, `unreachable!`,
a failed `assert!`, or integer-overflow abort) is the `crash` outcome.
`CallFrame.function : Rc<RefCell<LoxClosure>>` is embedded by value:
a `LoxClosure` is mutated only while the `Closure` instruction that
creates it is populating its capture list, before any frame can hold
it. -/

structure CallFrame where
  function : LoxClosure
  ip : Nat
  start : Nat
deriving DecidableEq

structure VM where
  frames : List CallFrame
  stack : List Value
  globals : List (String × Value)
  objects : MemManager
  span : Span
  module : Module
  reported : List RuntimeError
  output : List String

/-- `VM::FRAMES_MAX`. -/
def FRAMES_MAX : Nat := 64

/-- `VM::STACK_MAX = FRAMES_MAX * u8::MAX`. -/
def STACK_MAX : Nat := FRAMES_MAX * 255

/-- Outcome of executing one instruction. -/
inductive Step where
  | ok (vm : VM)
  | done (vm : VM)
  | err (e : RuntimeError)
  | crash (msg : String)

/-- Outcome of the interpreter loop. -/
inductive RunResult where
  | ok
  | rerr (e : RuntimeError)
  | crash (msg : String)
  | fuelOut
deriving DecidableEq

/-- `HashMap::insert`: overwrite or add. -/
def insertGlobal : List (String × Value) → String → Value → List (String × Value)
  | [], k, v => [(k, v)]
  | (k', v') :: rest, k, v =>
      if k' = k then (k, v) :: rest else (k', v') :: insertGlobal rest k v

/-- Draw a fresh `Rc` allocation identity. -/
def VM.freshId (vm : VM) : Nat × VM :=
  (vm.objects.nextId,
    { vm with objects := { vm.objects with nextId := vm.objects.nextId + 1 } })

/-- `VM::push` (lines 421–438): overflow check, then interning — a
string object is replaced by the shared handle
`self.objects.add_string(str)` before it reaches the stack. -/
def VM.push (vm : VM) (value : Value) : Except RuntimeError VM :=
  if vm.stack.length = STACK_MAX then
    .error (.StackOverflow vm.span)
  else
    let (value, vm) :=
      match value with
      | .Object _ (.Str str) =>
          let (obj, objects) := vm.objects.add_string str
          (Value.Object obj (.Str str), { vm with objects := objects })
      | v => (v, vm)
    .ok { vm with stack := vm.stack ++ [value] }

/-- `VM::pop`: `none` embeds the `unwrap` panic on an empty stack. -/
def VM.pop (vm : VM) : Option (Value × VM) :=
  match vm.stack.getLast? with
  | none => none
  | some v => some (v, { vm with stack := vm.stack.dropLast })

/-- `VM::pop_to`: pop until the stack has the target size. -/
def VM.pop_to (vm : VM) (offset : Nat) : VM :=
  { vm with stack := vm.stack.take offset }

/-- `VM::peek`. -/
def VM.peek (vm : VM) (distance : Nat) : Option Value :=
  if vm.stack.length ≤ distance then none
  else vm.stack.get? (vm.stack.length - 1 - distance)

/-- `VM::get`: read a slot relative to the top frame's start. -/
def VM.getSlot (vm : VM) (slot : Nat) : Option Value :=
  match vm.frames.getLast? with
  | none => none
  | some frame => vm.stack.get? (frame.start + slot)

/-- `VM::set`: write a slot relative to the top frame's start. -/
def VM.setSlot (vm : VM) (slot : Nat) (value : Value) : Option VM :=
  match vm.frames.getLast? with
  | none => none
  | some frame =>
      if frame.start + slot < vm.stack.length then
        some { vm with stack := vm.stack.set (frame.start + slot) value }
      else none

/-- `VM::get_upvalue`: the shared upvalue cell (its registry index) at
the given slot of the top frame's closure. -/
def VM.get_upvalue (vm : VM) (slot : Nat) : Option Nat :=
  match vm.frames.getLast? with
  | none => none
  | some frame => frame.function.upvalues.get? slot

/-- `VM::set_upvalue`: through an `Open` cell write the stack slot;
replace a `Closed` cell's value in place. -/
def VM.set_upvalue (vm : VM) (slot : Nat) (value : Value) : Option VM :=
  match vm.get_upvalue slot with
  | none => none
  | some uid =>
      match vm.module.upvals.get? uid with
      | none => none
      | some (.Open pos) =>
          if pos < vm.stack.length then
            some { vm with stack := vm.stack.set pos value }
          else none
      | some (.Closed _) =>
          some { vm with module :=
            { vm.module with upvals := vm.module.upvals.set uid (.Closed value) } }

/-- The scan of `VM::capture_upval` over the module's open-upvalue
list: an existing `Open(slot)` cell is reused; the scan stops early at
a cell whose slot is below the target. -/
def findOpenUpval : List LoxUpvalue → Nat → Nat → Option Nat
  | [], _, _ => none
  | .Open pos :: rest, slot, i =>
      if pos = slot then some i
      else if pos < slot then none
      else findOpenUpval rest slot (i + 1)
  | .Closed _ :: rest, slot, i => findOpenUpval rest slot (i + 1)

/-- `VM::capture_upval` (lines 504–522): reuse the open cell for the
absolute slot `frame.start + idx` or allocate a new `Open` cell in the
module. -/
def VM.capture_upval (vm : VM) (idx : Nat) : Option (Nat × VM) :=
  match vm.frames.getLast? with
  | none => none
  | some frame =>
      let slot := frame.start + idx
      match findOpenUpval vm.module.upvals slot 0 with
      | some uid => some (uid, vm)
      | none =>
          let (uid, m) := vm.module.pushUpval (.Open slot)
          some (uid, { vm with module := m })

/-- The `iter_mut` loop of `VM::close_upvals`: every `Open` cell with
slot `≥ last` becomes `Closed(stack[slot])`; `none` embeds the
`stack.get(slot).unwrap` panic. -/
def closeUpvalsList (stack : List Value) (last : Nat) :
    List LoxUpvalue → Option (List LoxUpvalue)
  | [] => some []
  | .Open slot :: rest =>
      if slot ≥ last then
        match stack.get? slot with
        | none => none
        | some v => (closeUpvalsList stack last rest).map (.Closed v :: ·)
      else (closeUpvalsList stack last rest).map (.Open slot :: ·)
  | .Closed v :: rest => (closeUpvalsList stack last rest).map (.Closed v :: ·)

/-- `VM::close_upvals` (lines 524–541).  Note the source first
normalizes `last` to `last - start` and then compares it against the
cells' slots, which are absolute stack indices (set by
`capture_upval` as `frame.start + idx` and used to index the stack
directly two lines later).  `none` embeds the two `assert!`s and the
`unwrap`. -/
def VM.close_upvals (vm : VM) (start last : Nat) : Option VM :=
  if !(last < vm.stack.length) then none
  else if !(start ≤ last) then none
  else
    let last := last - start
    match closeUpvalsList vm.stack last vm.module.upvals with
    | none => none
    | some upvals =>
        some { vm with module := { vm.module with upvals := upvals } }

/-- `VM::advance` (lines 544–556): `Ok none` when the top frame's `ip`
is at or past the end of its chunk (instruction fetch yields nothing
and the interpreter loop halts); otherwise the fetched instruction,
the incremented `ip`, and the remembered span.  The `String` error
embeds the `frames.last_mut().unwrap()` panic. -/
def VM.advance (vm : VM) : Except String (Option ((Nat × Ins × Span) × VM)) :=
  match vm.frames.getLast? with
  | none => .error "advance: no call frame"
  | some frame =>
      match frame.function.func.chunk.get frame.ip with
      | none => .ok none
      | some (ins, span) =>
          let frame' := { frame with ip := frame.ip + 1 }
          .ok (some ((frame.ip + 1, ins, span),
            { vm with frames := vm.frames.dropLast ++ [frame'], span := span }))

/-- `VM::update`: store a jumped-to `ip` in the top frame. -/
def VM.update (vm : VM) (ip : Nat) : VM :=
  match vm.frames.getLast? with
  | none => vm
  | some frame =>
      { vm with frames := vm.frames.dropLast ++ [{ frame with ip := ip }] }

/-- `((ip as isize) + offset) as usize`: 64-bit wraparound. -/
def wrapIp (ip : Nat) (offset : Int) : Nat :=
  (((ip : Int) + offset).emod ((2 : Int) ^ 64)).toNat

/-- `VM::call` (lines 371–395): arity check, frame-overflow check, new
frame based `args + 1` below the top of the stack. -/
def VM.call (vm : VM) (closure : LoxClosure) (args : Nat) : Step :=
  if args ≠ closure.func.arity then
    .err (.UnsupportedType
      ("Expected " ++ toString closure.func.arity ++ " arguments, but got " ++
        toString args)
      vm.span .Error)
  else if vm.frames.length = FRAMES_MAX then
    .err (.StackOverflow vm.span)
  else
    let start := vm.stack.length - args - 1
    .ok { vm with frames := vm.frames ++ [⟨closure, 0, start⟩] }

/-- `VM::call_value` (lines 321–369).  A bare `Function` callee is the
source's `unreachable!("Functions should be wrapped as closures.")`
panic. -/
def VM.call_value (vm : VM) (args : Nat) : Step :=
  match vm.peek args with
  | none => .crash "call_value: peek"
  | some callee =>
      match callee with
      | .Object _ (.Function _ _) => .crash "Functions should be wrapped as closures."
      | .Object _ (.Native _ idx) =>
          match vm.module.natives.get? idx with
          | none => .crash "call_value: native index"
          | some native =>
              let start := vm.stack.length - args - 1
              let argVals := (vm.stack.drop start).dropLast
              match native.call argVals vm.span with
              | .error e => .err e
              | .ok res =>
                  let vm := vm.pop_to start
                  match vm.push res with
                  | .error e => .err e
                  | .ok vm => .ok vm
      | .Object _ (.Closure _ idx) =>
          match vm.module.closures.get? idx with
          | none => .crash "call_value: closure index"
          | some closure => vm.call closure args
      | unexpected =>
          .err (.UnsupportedType
            ("Can only call functions and classes. Got `" ++
              unexpected.type_name ++ "`")
            vm.span .Error)

/-- The capture loop of the `Closure` instruction: append each
captured cell to the closure under construction in the module
registry. -/
def VM.closure_caps : VM → Nat → List (Bool × Nat) → Option VM
  | vm, _, [] => some vm
  | vm, cidx, (is_local, idx) :: rest =>
      let r : Option (Nat × VM) :=
        if is_local then vm.capture_upval idx
        else (vm.get_upvalue idx).map (fun uid => (uid, vm))
      match r with
      | none => none
      | some (uid, vm) =>
          match vm.module.closures.get? cidx with
          | none => none
          | some c =>
              let c' := { c with upvalues := c.upvalues ++ [uid] }
              let m' := { vm.module with closures := vm.module.closures.set cidx c' }
              VM.closure_caps { vm with module := m' } cidx rest

/-- `n` successive pops (`PopN`). -/
def VM.popN : VM → Nat → Option VM
  | vm, 0 => some vm
  | vm, n + 1 =>
      match vm.pop with
      | none => none
      | some (_, vm) => vm.popN n

/-- `err.report()`: log the diagnostic. -/
def VM.report (vm : VM) (e : RuntimeError) : VM :=
  { vm with reported := vm.reported ++ [e] }

/-- One iteration of the fetch–decode–execute loop of `VM::interpret`
(lines 101–317), after the fetch: execute `ins` with `ip` already
incremented past it.  Jump instructions store the mutated `ip` back
into the frame (the source's `jumped`/`update` mechanics). -/
def VM.step (vm : VM) (ip : Nat) (ins : Ins) (span : Span) : Step :=
  match ins with
  | .Constant n =>
      match vm.push n.copy with
      | .error e => .err e
      | .ok vm => .ok vm
  | .True =>
      match vm.push (.Boolean true) with
      | .error e => .err e
      | .ok vm => .ok vm
  | .False =>
      match vm.push (.Boolean false) with
      | .error e => .err e
      | .ok vm => .ok vm
  | .Nil =>
      match vm.push .Nil with
      | .error e => .err e
      | .ok vm => .ok vm

  | .Negate =>
      match vm.pop with
      | none => .crash "pop"
      | some (val, vm) =>
          match val with
          | .Number x =>
              match vm.push (Value.neg (.Number x)) with
              | .error e => .err e
              | .ok vm => .ok vm
          | unexpected =>
              .err (.UnsupportedType
                ("Bad type for unary `-` operator: `" ++
                  unexpected.type_name ++ "`")
                span .Error)

  | .Add =>
      match vm.pop with
      | none => .crash "pop"
      | some (b, vm) =>
          match vm.pop with
          | none => .crash "pop"
          | some (a, vm) =>
              match a, b with
              | .Number a, .Number b =>
                  match vm.push (.Number (F64.fadd a b)) with
                  | .error e => .err e
                  | .ok vm => .ok vm
              | .Object _ (.Str sa), b =>
                  let s := sa ++ b.display
                  let (obj, objects) := vm.objects.add_string s
                  let vm := { vm with objects := objects }
                  match vm.push (.Object obj (.Str s)) with
                  | .error e => .err e
                  | .ok vm => .ok vm
              | a, b =>
                  .err (.UnsupportedType
                    ("Binary `+` operator can only operate over two numbers or strings. Got types `" ++
                      a.type_name ++ "` and `" ++ b.type_name ++ "`")
                    span .Error)

  | .Subtract =>
      match vm.pop with
      | none => .crash "pop"
      | some (b, vm) =>
          match vm.pop with
          | none => .crash "pop"
          | some (a, vm) =>
              match a, b with
              | .Number a, .Number b =>
                  match vm.push (.Number (F64.fsub a b)) with
                  | .error e => .err e
                  | .ok vm => .ok vm
              | a, b =>
                  .err (.UnsupportedType
                    ("Binary `-` operator can only operate over two numbers. Got types `" ++
                      a.type_name ++ "` and `" ++ b.type_name ++ "`")
                    vm.span .Error)

  | .Multiply =>
      match vm.pop with
      | none => .crash "pop"
      | some (b, vm) =>
          match vm.pop with
          | none => .crash "pop"
          | some (a, vm) =>
              match a, b with
              | .Number a, .Number b =>
                  match vm.push (.Number (F64.fmul a b)) with
                  | .error e => .err e
                  | .ok vm => .ok vm
              | a, b =>
                  .err (.UnsupportedType
                    ("Binary `*` operator can only operate over two numbers. Got types `" ++
                      a.type_name ++ "` and `" ++ b.type_name ++ "`")
                    vm.span .Error)

  | .Divide =>
      match vm.pop with
      | none => .crash "pop"
      | some (b, vm) =>
          match vm.pop with
          | none => .crash "pop"
          | some (a, vm) =>
              match a, b with
              | .Number a, .Number b =>
                  let vm :=
                    if F64.feq b (.num 0) then
                      vm.report (.ZeroDivision vm.span)
                    else vm
                  match vm.push (.Number (F64.fdiv a b)) with
                  | .error e => .err e
                  | .ok vm => .ok vm
              | a, b =>
                  .err (.UnsupportedType
                    ("Binary `/` operator can only operate over two numbers. Got types `" ++
                      a.type_name ++ "` and `" ++ b.type_name ++ "`")
                    span .Error)

  | .Equal =>
      match vm.pop with
      | none => .crash "pop"
      | some (a, vm) =>
          match vm.pop with
          | none => .crash "pop"
          | some (b, vm) =>
              match vm.push (.Boolean (a.equals b)) with
              | .error e => .err e
              | .ok vm => .ok vm

  | .Greater =>
      match vm.pop with
      | none => .crash "pop"
      | some (b, vm) =>
          match vm.pop with
          | none => .crash "pop"
          | some (a, vm) =>
              match a, b with
              | .Number a, .Number b =>
                  match vm.push (.Boolean (F64.fgt a b)) with
                  | .error e => .err e
                  | .ok vm => .ok vm
              | a, b =>
                  .err (.UnsupportedType
                    ("Binary `>` operator can only compare two numbers. Got types `" ++
                      a.type_name ++ "` and `" ++ b.type_name ++ "`")
                    vm.span .Error)

  | .Less =>
      match vm.pop with
      | none => .crash "pop"
      | some (b, vm) =>
          match vm.pop with
          | none => .crash "pop"
          | some (a, vm) =>
              match a, b with
              | .Number a, .Number b =>
                  match vm.push (.Boolean (F64.flt a b)) with
                  | .error e => .err e
                  | .ok vm => .ok vm
              | a, b =>
                  .err (.UnsupportedType
                    ("Binary `<` operator can only compare two numbers. Got types `" ++
                      a.type_name ++ "` and `" ++ b.type_name ++ "`")
                    vm.span .Error)

  | .Not =>
      match vm.pop with
      | none => .crash "pop"
      | some (val, vm) =>
          match vm.push (.Boolean val.lognot) with
          | .error e => .err e
          | .ok vm => .ok vm

  | .Print =>
      match vm.pop with
      | none => .crash "pop"
      | some (val, vm) =>
          .ok { vm with output := vm.output ++ [val.display] }

  | .Pop =>
      match vm.pop with
      | none => .crash "pop"
      | some (_, vm) => .ok vm

  | .PopN n =>
      match vm.popN n with
      | none => .crash "pop"
      | some vm => .ok vm

  | .DefGlobal name =>
      match vm.peek 0 with
      | none => .crash "peek"
      | some val =>
          let vm := { vm with globals := insertGlobal vm.globals name val }
          match vm.pop with
          | none => .crash "pop"
          | some (_, vm) => .ok vm

  | .GetGlobal name =>
      match vm.globals.lookup name with
      | some val =>
          match vm.push val.copy with
          | .error e => .err e
          | .ok vm => .ok vm
      | none => .err (.UndefinedVariable name span)

  | .SetGlobal name =>
      match vm.globals.lookup name with
      | none => .err (.UndefinedVariable name span)
      | some _ =>
          match vm.peek 0 with
          | none => .crash "peek"
          | some val => .ok { vm with globals := insertGlobal vm.globals name val }

  | .GetLocal slot =>
      match vm.getSlot slot with
      | none => .crash "get"
      | some val =>
          match vm.push val.copy with
          | .error e => .err e
          | .ok vm => .ok vm

  | .SetLocal slot =>
      match vm.peek 0 with
      | none => .crash "peek"
      | some val =>
          match vm.setSlot slot val with
          | none => .crash "set"
          | some vm => .ok vm

  | .GetUpval slot =>
      match vm.get_upvalue slot with
      | none => .crash "get_upvalue"
      | some uid =>
          match vm.module.upvals.get? uid with
          | none => .crash "get_upvalue: cell"
          | some (.Open pos) =>
              match vm.stack.get? pos with
              | none => .crash "GetUpval: stack"
              | some val =>
                  match vm.push val.copy with
                  | .error e => .err e
                  | .ok vm => .ok vm
          | some (.Closed val) =>
              match vm.push val.copy with
              | .error e => .err e
              | .ok vm => .ok vm

  | .SetUpval slot =>
      match vm.peek 0 with
      | none => .crash "peek"
      | some val =>
          match vm.set_upvalue slot val.copy with
          | none => .crash "set_upvalue"
          | some vm => .ok vm

  | .CloseUpval =>
      match vm.frames.getLast? with
      | none => .crash "frames.last"
      | some frame =>
          match vm.stack.length with
          | 0 => .crash "stack.len() - 1 underflow"
          | len + 1 =>
              match vm.close_upvals frame.start len with
              | none => .crash "close_upvals"
              | some vm =>
                  match vm.pop with
                  | none => .crash "pop"
                  | some (_, vm) => .ok vm

  | .Call args => vm.call_value args

  | .Closure n upvals =>
      match vm.module.functions.get? n with
      | none => .crash "Closure: function index"
      | some fn =>
          let closure := LoxClosure.mkNew fn
          let (cidx, m) := vm.module.pushClosure closure
          let vm := { vm with module := m }
          let name := fn.name
          match vm.closure_caps cidx upvals with
          | none => .crash "Closure: captures"
          | some vm =>
              let (rcId, vm) := vm.freshId
              match vm.push (.Object rcId (.Closure name cidx)) with
              | .error e => .err e
              | .ok vm => .ok vm

  | .Jump offset =>
      .ok (vm.update (wrapIp ip offset))

  | .JumpIfFalse offset =>
      match vm.peek 0 with
      | none => .crash "peek"
      | some v =>
          if !v.truth then .ok (vm.update (wrapIp ip offset))
          else .ok vm

  | .Return =>
      match vm.pop with
      | none => .crash "pop"
      | some (result, vm) =>
          match vm.frames.getLast? with
          | none => .crash "frames.pop"
          | some frame =>
              let vm := { vm with frames := vm.frames.dropLast }
              if vm.frames.length = 0 then .done vm
              else
                match vm.close_upvals frame.start frame.start with
                | none => .crash "close_upvals"
                | some vm =>
                    let vm := vm.pop_to frame.start
                    match vm.push result with
                    | .error e => .err e
                    | .ok vm => .ok vm

/-- The fetch–decode–execute loop of `VM::interpret`, with fuel:
`advance` returning `None` breaks the loop and the function returns
`Ok(())`; a `Return` that pops the final frame also returns `Ok(())`. -/
def VM.interpret : Nat → VM → RunResult
  | 0, _ => .fuelOut
  | fuel + 1, vm =>
      match vm.advance with
      | .error msg => .crash msg
      | .ok none => .ok
      | .ok (some ((ip, ins, span), vm)) =>
          match vm.step ip ins span with
          | .ok vm => VM.interpret fuel vm
          | .done _ => .ok
          | .err e => .rerr e
          | .crash msg => .crash msg

/-! ## Parser (src/rblox/src/compiler/parser/mod.rs)

Only the paths the settled claims depend on are embedded; the Pratt
expression machinery is passed in as a function argument where a path
calls into it.  The scanner feeding `Parser::advance` is embedded as
the list of its remaining tokens. -/

/-- `(String Must)` message. -/
def S_MUST : String := "Parser bug. Unexpected token"

structure Parser where
  tokens : List Token
  current_token : Token
  prev_token : Token
  panic_mode : Bool
  diagnostics : List ParseError
  compiler : Compiler
  module : Module

/-- Outcome of a `PResult<()>`-returning parser method (paired with
the mutated parser): `crash` embeds the
`.expect("Cannot advance past EOF.")` panic. -/
inductive POut where
  | ok
  | err (e : ParseError)
  | crash

/-- `Parser::advance` (lines 685–708): pull the next token, reporting
scan-error tokens into the diagnostics and skipping comment and
whitespace tokens.  Returns `none` for advancing past the end of the
token stream (the source's `.expect` panic). -/
def Parser.advance : Nat → Parser → Option Parser
  | 0, _ => none
  | fuel + 1, p =>
      match p.tokens with
      | [] => none
      | t :: rest =>
          let p := { p with tokens := rest }
          match t.kind with
          | .Error error =>
              if p.panic_mode then Parser.advance fuel p
              else
                Parser.advance fuel
                  { p with panic_mode := true
                           diagnostics := p.diagnostics ++ [.ScanErr error t.span] }
          | .Comment _ => Parser.advance fuel p
          | .BlockComment _ _ => Parser.advance fuel p
          | .Whitespace _ => Parser.advance fuel p
          | _ =>
              some { p with prev_token := p.current_token, current_token := t }

/-- `Parser::is`: discriminant comparison with the current token. -/
def Parser.is (p : Parser) (expected : TokenType) : Bool :=
  p.current_token.kind.sameKind expected

/-- `Parser::take`. -/
def Parser.takeTok (p : Parser) (expected : TokenType) : Option (Bool × Parser) :=
  if p.is expected then
    match Parser.advance (p.tokens.length + 1) p with
    | none => none
    | some p => some (true, p)
  else some (false, p)

/-- `Parser::consume`: advance past an expected token (returning it as
the new `prev_token`) or produce an `UnexpectedToken` error. -/
def Parser.consume (p : Parser) (expected : TokenType) (msg : String) :
    Option (Except ParseError (Token × Parser)) :=
  if p.is expected then
    match Parser.advance (p.tokens.length + 1) p with
    | none => none
    | some p => some (.ok (p.prev_token, p))
  else
    some (.error (.UnexpectedToken msg p.current_token (some expected)))

/-- `Parser::current().emit(...)` wrapper. -/
def Parser.emit (p : Parser) (ins : Ins) (span : Span) : Parser :=
  { p with compiler := (p.compiler.emit ins span).1 }

/-- `Parser::emit_return`: the implicit `Nil`, `Return` epilogue. -/
def Parser.emit_return (p : Parser) : Parser :=
  let span := p.prev_token.span
  let p := p.emit .Nil span
  p.emit .Return span

/-- `Parser::parse_return` (lines 369–389): at script scope the method
returns an `Err` carrying a *Warning*-level `ParseError::Error`; in a
function it compiles the return value (the expression parser is the
`parse_expr` argument) and emits `Return`. -/
def Parser.parse_return (parse_expr : Parser → Parser × POut × Span)
    (p : Parser) : Parser × POut :=
  match p.consume .ReturnKw S_MUST with
  | none => (p, .crash)
  | some (.error e) => (p, .err e)
  | some (.ok (ret, p)) =>
      let return_span := ret.span
      if p.compiler.fun_type = .Script then
        (p, .err (.perror .Warning "Detected return from top-level code" return_span))
      else
        match p.takeTok .Semicolon with
        | none => (p, .crash)
        | some (true, p) => (p.emit_return, .ok)
        | some (false, p) =>
            let (p, out, _) := parse_expr p
            match out with
            | .ok =>
                match p.consume .Semicolon "Expected `;` after return value" with
                | none => (p, .crash)
                | some (.error e) => (p, .err e)
                | some (.ok (semi, p)) =>
                    (p.emit .Return (return_span.to semi.span), .ok)
            | out => (p, out)

/-- The error collection in `Parser::declaration` (lines 65–79): an
`Err` from a statement parser is pushed into the diagnostics
vector — with no inspection of its level. -/
def Parser.declaration_collect (p : Parser) (out : POut) : Parser :=
  match out with
  | .err e => { p with diagnostics := p.diagnostics ++ [e] }
  | _ => p

/-- The compile gate of `VM::run` (lines 52–61): when the parser
returned *any* diagnostics, they are reported and the run aborts with
`CompileError` before the interpreter starts; `none` means execution
proceeds. -/
def runGate (compile_errors : List ParseError) : Option ErrorType :=
  if compile_errors.length > 0 then some .CompileError else none

/-- The tail of `Parser::function` (lines 177–179): after the nested
function's parameters and block were compiled into the inner compiler,
the parser swaps the enclosing compiler back in, takes the *function*
out of the inner compiler (dropping its `upvalues` capture-descriptor
vector), pushes it into the module's function registry and emits
`Ins::from(LoxObject::Function(name, idx))` — a `Constant`
instruction — into the enclosing chunk. -/
def Parser.functionFinish (inner enclosing : Compiler) (m : Module)
    (name : String) (span : Span) : Compiler × Module :=
  let func := inner.function
  let (idx, m) := m.pushFunction func
  let (enclosing, _) := enclosing.emit (Ins.ofLoxObject (.Function name idx)) span
  (enclosing, m)

/-! ## The `Gc` registry (src/rblox/src/gc/module.rs)

`Gc<T>` keeps `data: Vec<Option<Rc<T>>>` plus a max-heap of freed
indices.  `Gc::free` nulls every entry whose allocation can be
reclaimed; `Gc::push` first runs `free` (the debug-build "stress
test") and then reuses the greatest freed slot, if any, before
appending.  `Rc::strong_count` — aliasing state outside the registry —
is an oracle argument `sc`; the `Allocated::check` trait method (whose
impls are not under `src/`) is a structure field. -/

/-- The `Allocated` trait: whether an otherwise-unreferenced
allocation may be reclaimed. -/
structure Allocated (T : Type) where
  check : T → Bool

/-- Modelled from the spec: functions are never reclaimed — "Append-only
registries ... Functions and natives are never removed" (§4.F); the
`Allocated` impl for `LoxFunction` is not under `src/`. -/
def functionAllocated : Allocated LoxFunction := ⟨fun _ => false⟩

structure Gc (T : Type) where
  data : List (Option T)
  freeHeap : List Nat
deriving DecidableEq

def Gc.emptyGc {T : Type} : Gc T := ⟨[], []⟩

/-- The scan inside `Gc::free`: null each freeable entry (strong count
not above 1 and `check` true), collecting its index. -/
def gcFreeData {T : Type} (al : Allocated T) (sc : Nat → Nat) :
    Nat → List (Option T) → List (Option T) × List Nat
  | _, [] => ([], [])
  | i, v :: rest =>
      let (rest', freed) := gcFreeData al sc (i + 1) rest
      match v with
      | some obj =>
          if !(sc i > 1) && al.check obj then (none :: rest', i :: freed)
          else (some obj :: rest', freed)
      | none => (none :: rest', freed)

/-- `Gc::free` (lines 51–91). -/
def Gc.free {T : Type} (al : Allocated T) (sc : Nat → Nat) (g : Gc T) : Gc T :=
  let (d, freed) := gcFreeData al sc 0 g.data
  ⟨d, g.freeHeap ++ freed⟩

/-- `Gc::push` (lines 93–124): stress-test `free`, then insert at the
greatest freed index or append. -/
def Gc.push {T : Type} (al : Allocated T) (sc : Nat → Nat) (g : Gc T)
    (obj : T) : Nat × Gc T :=
  let g := g.free al sc
  match g.freeHeap.max? with
  | none => (g.data.length, { g with data := g.data ++ [some obj] })
  | some pos =>
      (pos, ⟨g.data.set pos (some obj), g.freeHeap.erase pos⟩)

/-- `Gc::get`: `None` both past the end and for a freed slot. -/
def Gc.get {T : Type} (g : Gc T) (idx : Nat) : Option T :=
  if idx ≥ g.data.length then none
  else (g.data.get? idx).getD none

/-- The registry operations that can touch a `Gc` during a VM
lifetime: a push (which stress-frees first) or a bare free, each under
an arbitrary aliasing state. -/
inductive GcOp (T : Type) where
  | push (x : T) (sc : Nat → Nat)
  | free (sc : Nat → Nat)

def Gc.runOps {T : Type} (al : Allocated T) (g : Gc T) : List (GcOp T) → Gc T
  | [] => g
  | .push x sc :: ops => Gc.runOps al (Gc.push al sc g x).2 ops
  | .free sc :: ops => Gc.runOps al (g.free al sc) ops

/-- `impl Push<NativeFunction> for Module` in `gc/module.rs`: the
natives registry is a plain vector; the only operation is `push`
(append). -/
def pushNativesOps (natives : List NativeFunction) :
    List NativeFunction → List NativeFunction
  | [] => natives
  | n :: rest => pushNativesOps (natives ++ [n]) rest

/-! ## Concrete instances used by the closed theorems below -/

/-- A span for concrete programs. -/
def sp0 : Span := Span.new 0 0 1

/-- A one-instruction chunk: `Return`. -/
def retChunk : Chunk := (Chunk.new "inner").write .Return sp0

def innerFun : LoxFunction :=
  { name := "inner", arity := 0, chunk := retChunk, upvalues := 0 }

def outerFun : LoxFunction :=
  { name := "outer", arity := 0, chunk := Chunk.new "outer", upvalues := 0 }

/-- An empty VM shell around a stack/frames/module configuration. -/
def mkVM (frames : List CallFrame) (stack : List Value) (m : Module) : VM :=
  { frames := frames
    stack := stack
    globals := []
    objects := MemManager.emptyMgr
    span := sp0
    module := m
    reported := []
    output := [] }

/-- C2's failing state: an outer frame based at slot 0 whose local at
slot 1 has been captured as the open upvalue `Open 1`, and an inner
frame based at slot 2 about to execute `Return` (its callee at slot 2,
the return value on top at slot 3). -/
def vmReturnState : VM :=
  mkVM
    [⟨LoxClosure.mkNew outerFun, 0, 0⟩, ⟨LoxClosure.mkNew innerFun, 1, 2⟩]
    [.Number (.num 0), .Number (.num 1), .Number (.num 2), .Number (.num 3)]
    { Module.emptyMod with upvals := [.Open 1] }

/-- C4's failing state: `Nil` on top of the stack, `Not` about to
execute. -/
def vmNotState : VM :=
  mkVM [⟨LoxClosure.mkNew outerFun, 0, 0⟩] [.Nil] Module.emptyMod

/-- C1's call state: the compiled `Constant(Object(Function("f", 0)))`
has been pushed and `Call(0)` dispatches on it. -/
def vmCallFunctionState : VM :=
  mkVM [⟨LoxClosure.mkNew outerFun, 0, 0⟩] [.Object 7 (.Function "f" 0)]
    Module.emptyMod

/-- C1's finished inner compiler: one resolved capture descriptor
`(is_local = true, index = 1)` in its `upvalues` vector. -/
def innerCompiler : Compiler :=
  { function := innerFun
    fun_type := .Function
    locals := [⟨"inner", Span.new 0 0 0, 0, false⟩]
    scope_depth := 1
    upvalues := [(true, 1)] }

/-- C10's witness state: a frame whose `ip` is at the end of its
(empty) chunk. -/
def vmHaltState : VM :=
  mkVM [⟨LoxClosure.mkNew outerFun, 0, 0⟩] [.Nil] Module.emptyMod

/-- C3's parser state: `return` at script scope is the current token;
the rest of the program is `;` then EOF. -/
def pReturnState : Parser :=
  { tokens := [⟨.Semicolon, Span.new 6 7 1⟩, ⟨.EOF, Span.new 7 8 1⟩]
    current_token := ⟨.ReturnKw, Span.new 0 6 1⟩
    prev_token := Token.dummy
    panic_mode := false
    diagnostics := []
    compiler := Compiler.mkNew
    module := Module.emptyMod }

/-- A trivial expression-parser argument (the script-scope path of
`parse_return` returns before any expression is parsed, so this is
never invoked there). -/
def noExpr : Parser → Parser × POut × Span :=
  fun p => (p, .ok, Span.new 0 0 0)

/-- C6's witness state: `5 / 0` about to execute. -/
def vmDivState : VM :=
  mkVM [⟨LoxClosure.mkNew outerFun, 0, 0⟩]
    [.Number (.num 5), .Number (.num 0)] Module.emptyMod

/-- C9's witness state: an empty stack and empty intern pool. -/
def vmInternState : VM := mkVM [] [] Module.emptyMod

/-- Modelled host native (`clock`): the embedding does not model wall
clocks, so it returns a fixed instant; only its registry identity
matters to the claims. -/
def clockNative : NativeFunction :=
  { name := "clock", arity := 0, fn_ptr := fun _ => .ok (.Number (.num 0)) }

/-- C8's witness registry: one live function. -/
def gcOneFun : Gc LoxFunction := ⟨[some outerFun], []⟩

/-- C3's parser state right after `consume(Return)` succeeded on
`pReturnState`. -/
def pAfterReturn : Parser :=
  { tokens := [⟨.EOF, Span.new 7 8 1⟩]
    current_token := ⟨.Semicolon, Span.new 6 7 1⟩
    prev_token := ⟨.ReturnKw, Span.new 0 6 1⟩
    panic_mode := false
    diagnostics := []
    compiler := Compiler.mkNew
    module := Module.emptyMod }

/-! ## Shared lemmas -/

/-- Popping a stack that ends in `v` yields `v` and drops it. -/
theorem VM.pop_concat (vm : VM) (xs : List Value) (v : Value)
    (h : vm.stack = xs ++ [v]) :
    vm.pop = some (v, { vm with stack := xs }) := by
  unfold VM.pop
  rw [h, List.getLast?_concat, List.dropLast_concat]

/-- `Scanner::advance` never touches the line counter. -/
theorem Scanner.advance_line (s : Scanner) : ((s.advance).2).line = s.line := by
  unfold Scanner.advance
  cases s.chars <;> rfl

/-- `Scanner::consume_until` never touches the line counter. -/
theorem Scanner.consume_until_line :
    ∀ (fuel : Nat) (s : Scanner) (ch : Char),
    (Scanner.consume_until fuel s ch).line = s.line := by
  intro fuel
  induction fuel with
  | zero => intro s ch; rfl
  | succ n ih =>
      intro s ch
      unfold Scanner.consume_until
      split
      · rw [ih, Scanner.advance_line]
      · rfl

/-- `MemManager::add_string` returns the registered handle, and leaves
the manager untouched, whenever the content is already interned. -/
theorem MemManager.add_string_idem (m : MemManager) (str : String) (hdl : Nat)
    (h : m.strings.lookup str = some hdl) :
    m.add_string str = (hdl, m) := by
  unfold MemManager.add_string
  rw [h]

/-- Iterated `add_local` succeeds while the locals array stays within
`LOCALS_MAX`, growing it by one per declaration. -/
theorem Compiler.addLocals_ok : ∀ (k : Nat) (c : Compiler),
    c.locals.length + k ≤ LOCALS_MAX →
    ∃ c', c.addLocals k = .ok c' ∧ c'.locals.length = c.locals.length + k := by
  intro k
  induction k with
  | zero => intro c h; exact ⟨c, rfl, rfl⟩
  | succ n ih =>
      intro c h
      have hne : ¬ c.locals.length = LOCALS_MAX := by
        unfold LOCALS_MAX at *; omega
      have hadd : c.add_local "x" (Span.new 0 0 0) =
          .ok { c with locals := c.locals ++ [⟨"x", Span.new 0 0 0, -1, false⟩] } := by
        unfold Compiler.add_local
        rw [if_neg hne]
      obtain ⟨c', hc', hl⟩ := ih { c with locals := c.locals ++ [⟨"x", Span.new 0 0 0, -1, false⟩] }
        (by simp; omega)
      refine ⟨c', ?_, ?_⟩
      · unfold Compiler.addLocals
        rw [hadd]
        exact hc'
      · simp at hl
        omega

/-- Once the locals array would reach `LOCALS_MAX`, the next
declaration fails with the `StackOverflow` compile error. -/
theorem Compiler.addLocals_overflow : ∀ (k : Nat) (c : Compiler),
    c.locals.length + k = LOCALS_MAX →
    c.addLocals (k + 1) =
      .error (.StackOverflow "Too many local variables in function" (Span.new 0 0 0)) := by
  intro k
  induction k with
  | zero =>
      intro c h
      unfold Compiler.addLocals Compiler.add_local
      simp at h
      rw [if_pos h]
  | succ n ih =>
      intro c h
      have hne : ¬ c.locals.length = LOCALS_MAX := by omega
      have hadd : c.add_local "x" (Span.new 0 0 0) =
          .ok { c with locals := c.locals ++ [⟨"x", Span.new 0 0 0, -1, false⟩] } := by
        unfold Compiler.add_local
        rw [if_neg hne]
      have := ih { c with locals := c.locals ++ [⟨"x", Span.new 0 0 0, -1, false⟩] }
        (by simp; omega)
      unfold Compiler.addLocals
      rw [hadd]
      exact this

/-- The `LoxFunction` allocation policy never reclaims. -/
theorem functionAllocated_check (f : LoxFunction) :
    functionAllocated.check f = false := rfl

/-- With the function policy, the free scan is a no-op. -/
theorem gcFreeData_noop (sc : Nat → Nat) :
    ∀ (data : List (Option LoxFunction)) (i : Nat),
    gcFreeData functionAllocated sc i data = (data, []) := by
  intro data
  induction data with
  | nil => intro i; rfl
  | cons v rest ih =>
      intro i
      cases v <;> simp [gcFreeData, functionAllocated_check, ih]

/-- `Gc::free` never changes the function registry. -/
theorem Gc.free_noop (sc : Nat → Nat) (g : Gc LoxFunction) :
    g.free functionAllocated sc = g := by
  unfold Gc.free
  rw [gcFreeData_noop]
  simp

/-- With an empty free heap, `Gc::push` appends. -/
theorem Gc.push_heapEmpty (sc : Nat → Nat) (g : Gc LoxFunction) (x : LoxFunction)
    (h : g.freeHeap = []) :
    Gc.push functionAllocated sc g x = (g.data.length, ⟨g.data ++ [some x], []⟩) := by
  simp only [Gc.push, Gc.free_noop, h]
  rfl

/-- Any sequence of pushes and frees preserves every existing function
registry entry (and keeps the free heap empty). -/
theorem Gc.runOps_preserves :
    ∀ (ops : List (GcOp LoxFunction)) (g : Gc LoxFunction) (i : Nat) (f : LoxFunction),
    g.freeHeap = [] → g.data.get? i = some (some f) →
    (Gc.runOps functionAllocated g ops).freeHeap = [] ∧
    (Gc.runOps functionAllocated g ops).data.get? i = some (some f) := by
  intro ops
  induction ops with
  | nil => intro g i f h1 h2; exact ⟨h1, h2⟩
  | cons op rest ih =>
      intro g i f h1 h2
      have hi : i < g.data.length := by
        by_contra hc
        rw [List.get?_eq_none.2 (le_of_not_lt hc)] at h2
        exact Option.noConfusion h2
      cases op with
      | push x sc =>
          have hp := Gc.push_heapEmpty sc g x h1
          unfold Gc.runOps
          rw [hp]
          exact ih _ i f rfl (by show (g.data ++ [some x]).get? i = _; rw [List.get?_append hi]; exact h2)
      | free sc =>
          unfold Gc.runOps
          rw [Gc.free_noop]
          exact ih g i f h1 h2

/-- Pushing natives preserves every existing natives entry. -/
theorem pushNativesOps_preserves :
    ∀ (nops : List NativeFunction) (natives : List NativeFunction) (j : Nat)
      (nf : NativeFunction),
    natives.get? j = some nf →
    (pushNativesOps natives nops).get? j = some nf := by
  intro nops
  induction nops with
  | nil => intro natives j nf h; exact h
  | cons n rest ih =>
      intro natives j nf h
      have hj : j < natives.length := by
        by_contra hc
        rw [List.get?_eq_none.2 (le_of_not_lt hc)] at h
        exact Option.noConfusion h
      unfold pushNativesOps
      exact ih _ j nf (by show (natives ++ [n]).get? j = _; rw [List.get?_append hj]; exact h)

/-- `Parser::advance` touches neither the compiler nor the current
token (which it installs as the new `prev_token`). -/
theorem Parser.advance_state :
    ∀ (fuel : Nat) (p p' : Parser), Parser.advance fuel p = some p' →
    p'.compiler = p.compiler ∧ p'.prev_token = p.current_token := by
  intro fuel
  induction fuel with
  | zero => intro p p' h; exact absurd h (by simp [Parser.advance])
  | succ n ih =>
      intro p p' h
      unfold Parser.advance at h
      rcases hts : p.tokens with _ | ⟨t, rest⟩ <;> rw [hts] at h
      · exact absurd h (by simp)
      · dsimp only at h
        cases hk : t.kind <;> simp only [hk] at h <;>
          first
          | (injection h with h; exact ⟨by rw [← h], by rw [← h]⟩)
          | (have hx := ih _ _ h; exact hx)
          | (split at h <;> (have hx := ih _ _ h; exact hx))

/-! ## Claim theorems -/

/-- C1: the claim says a successfully compiled `fun` declaration ends
with a `Closure` instruction referencing the appended function and
carrying its capture descriptors.  Evaluating the code at the failing
input (a compiled inner function with capture list `[(true, 1)]`,
i.e. the program `fun f() {} f();` extended with any capture): the
function is appended to the registry, but the emitted instruction is
`Constant(Object(Function("f", 0)))` — not a `Closure` — the inner
compiler's capture descriptors are discarded, and the VM's call
dispatch on such a callee is the
`unreachable!("Functions should be wrapped as closures.")` panic. -/
theorem C1_function_decl_emits_constant_not_closure :
    (Parser.functionFinish innerCompiler Compiler.mkNew Module.emptyMod "f" sp0).2.functions
      = [innerFun] ∧
    innerCompiler.upvalues = [(true, 1)] ∧
    (Parser.functionFinish innerCompiler Compiler.mkNew Module.emptyMod "f" sp0).1.function.chunk.code
      = [.Constant (.Object 0 (.Function "f" 0))] ∧
    (∀ (n : Nat) (caps : List (Bool × Nat)),
      Ins.Constant (.Object 0 (.Function "f" 0)) ≠ .Closure n caps) ∧
    vmCallFunctionState.call_value 0 =
      .crash "Functions should be wrapped as closures." := by
  refine ⟨rfl, rfl, rfl, ?_, rfl⟩
  intro n caps h
  exact Ins.noConfusion h

/-- C2: the claim says a non-final `Return` closes exactly the open
upvalues with absolute slot ≥ the popped frame's base and leaves lower
slots open.  Evaluating the code at the failing input — frames based
at 0 and 2, the open upvalue `Open 1` belonging to the outer frame,
stack `[0, 1, 2, 3]` — the `Return` closes `Open 1` to
`Closed(stack[1])` even though `1 < 2`: `close_upvals` normalizes its
threshold to `start - start = 0` while the cells hold absolute slots,
so every open upvalue is closed.  Truncation and the result push do
follow the claim. -/
theorem C2_return_closes_upvalue_below_base :
    ∃ vm', vmReturnState.step 1 .Return sp0 = .ok vm' ∧
      vmReturnState.frames.getLast?.map CallFrame.start = some 2 ∧
      vmReturnState.module.upvals = [.Open 1] ∧ 1 < 2 ∧
      vm'.module.upvals = [.Closed (.Number (.num 1))] ∧
      vm'.module.upvals ≠ [.Open 1] ∧
      vm'.stack = [.Number (.num 0), .Number (.num 1), .Number (.num 3)] ∧
      vm'.frames = [⟨LoxClosure.mkNew outerFun, 0, 0⟩] := by
  exact ⟨_, rfl, rfl, rfl, by decide, rfl, by decide, rfl, rfl⟩

/-- C3 (amended): a `return` parsed at script scope makes
`parse_return` return an `Err` whose level is Warning;
`Parser::declaration` pushes that error into the diagnostics with no
level filtering, and `VM::run` aborts with `CompileError` whenever the
diagnostics are nonempty — Warning-only diagnostics included.  (The
claim's "execution still proceeds" is what fails on the code.) -/
theorem C3_script_return_warning_aborts (p p' : Parser)
    (f : Parser → Parser × POut × Span)
    (h1 : p.compiler.fun_type = .Script)
    (h2 : p.current_token.kind = .ReturnKw)
    (h3 : Parser.advance (p.tokens.length + 1) p = some p') :
    ∃ e, Parser.parse_return f p = (p', .err e) ∧
      e.get_level = .Warning ∧
      (Parser.declaration_collect p' (.err e)).diagnostics = p'.diagnostics ++ [e] ∧
      (∀ errs : List ParseError, errs ≠ [] → runGate errs = some .CompileError) := by
  obtain ⟨hc, hprev⟩ := Parser.advance_state _ _ _ h3
  have his : p.is .ReturnKw = true := by
    unfold Parser.is
    rw [h2]
    rfl
  have hcons : p.consume .ReturnKw S_MUST = some (.ok (p'.prev_token, p')) := by
    unfold Parser.consume
    rw [if_pos his]
    simp only [h3]
  have hty : p'.compiler.fun_type = .Script := by rw [hc]; exact h1
  refine ⟨.perror .Warning "Detected return from top-level code" p'.prev_token.span,
    ?_, rfl, rfl, ?_⟩
  · unfold Parser.parse_return
    rw [hcons]
    dsimp only
    rw [if_pos hty]
  · intro errs hne
    unfold runGate
    rw [if_pos (List.length_pos.mpr hne)]

/-- C3 witness: the concrete parser state for the program fragment
`return x;` at top level, where the return warning is the only
diagnostic, discharges the hypotheses of
`C3_script_return_warning_aborts`. -/
theorem C3_script_return_warning_aborts_witness :
    (pReturnState.compiler.fun_type = .Script ∧
     pReturnState.current_token.kind = .ReturnKw ∧
     Parser.advance (pReturnState.tokens.length + 1) pReturnState = some pAfterReturn) ∧
    (∃ e, Parser.parse_return noExpr pReturnState = (pAfterReturn, .err e) ∧
      e.get_level = .Warning ∧
      (Parser.declaration_collect pAfterReturn (.err e)).diagnostics =
        pAfterReturn.diagnostics ++ [e] ∧
      (∀ errs : List ParseError, errs ≠ [] → runGate errs = some .CompileError)) :=
  ⟨⟨rfl, rfl, rfl⟩,
    C3_script_return_warning_aborts pReturnState pAfterReturn noExpr rfl rfl rfl⟩

/-- C3 counterexample: the claim, read at this concrete state, says
the warning must not prevent execution; here the collected diagnostics
are exactly the one Warning-level error, yet the compile gate of
`VM::run` aborts with `CompileError`. -/
theorem C3_warning_only_diagnostics_still_abort :
    ∃ e p', Parser.parse_return noExpr pReturnState = (p', .err e) ∧
      e.get_level = .Warning ∧
      (Parser.declaration_collect p' (.err e)).diagnostics = [e] ∧
      runGate [e] = some .CompileError := by
  exact ⟨_, _, rfl, rfl, rfl, rfl⟩

/-- C4: the claim says `Not` pushes `Boolean(!truth(v))`, in
particular `Boolean(true)` for `Nil`.  Evaluating the code at the
failing input (`Not` with `Nil` on top, i.e. `print !nil;`): the
`impl Not for Value` special-cases `Nil` to `false`, so the VM pushes
`Boolean(false)` — the negation of what `!truth(Nil)` prescribes. -/
theorem C4_not_nil_pushes_false :
    Value.lognot .Nil = false ∧
    (!Value.truth .Nil) = true ∧
    (∃ vm', vmNotState.step 1 .Not sp0 = .ok vm' ∧
      vm'.stack = [.Boolean false] ∧
      vm'.stack ≠ [.Boolean (!Value.truth .Nil)]) := by
  exact ⟨rfl, rfl, _, rfl, rfl, by decide⟩

/-- C5 (amended): a function body may declare up to 511 local
variables — slot 0 of the 512-entry locals array is pre-occupied by
the reserved callee entry that `Compiler::build` pushes — and the
512th declaration fails with the `StackOverflow` compile error
"Too many local variables in function". -/
theorem C5_locals_limit (name : String) (k : Nat) (hk : k ≤ 511) :
    (∃ c', (Compiler.build name .Function).addLocals k = .ok c' ∧
       c'.locals.length = k + 1) ∧
    (Compiler.build name .Function).addLocals 512 =
      .error (.StackOverflow "Too many local variables in function" (Span.new 0 0 0)) := by
  constructor
  · obtain ⟨c', h1, h2⟩ := Compiler.addLocals_ok k (Compiler.build name .Function)
      (by simp [Compiler.build, LOCALS_MAX]; omega)
    refine ⟨c', h1, ?_⟩
    simp [Compiler.build] at h2
    omega
  · exact Compiler.addLocals_overflow 511 (Compiler.build name .Function)
      (by simp [Compiler.build, LOCALS_MAX])

/-- C5 witness: three locals are fine. -/
theorem C5_locals_limit_witness :
    3 ≤ 511 ∧
    ((∃ c', (Compiler.build "f" .Function).addLocals 3 = .ok c' ∧
       c'.locals.length = 3 + 1) ∧
     (Compiler.build "f" .Function).addLocals 512 =
       .error (.StackOverflow "Too many local variables in function" (Span.new 0 0 0))) :=
  ⟨by decide, C5_locals_limit "f" 3 (by decide)⟩

/-- C5 counterexample: the claim says 512 locals compile without
error; on the code, the 512th declaration already fails with
`StackOverflow` (slot 0 is reserved, so the array is full after 511
user declarations). -/
theorem C5_512th_local_overflows :
    (Compiler.build "f" .Function).addLocals 512 =
      .error (.StackOverflow "Too many local variables in function" (Span.new 0 0 0)) :=
  Compiler.addLocals_overflow 511 (Compiler.build "f" .Function)
    (by simp [Compiler.build, LOCALS_MAX])

/-- C6: `Divide` on two numeric operands never produces a runtime
error: it pushes the IEEE-754 quotient and continues, and when the
divisor is `0.0` it additionally reports a `ZeroDivision` diagnostic —
whose level is Warning — while the pushed result is an infinity or
NaN. -/
theorem C6_divide_by_zero_warns_and_continues (vm : VM) (ip : Nat) (span : Span)
    (rest : List Value) (a b : F64)
    (hstack : vm.stack = rest ++ [.Number a, .Number b])
    (hlen : vm.stack.length ≤ STACK_MAX) :
    (∃ vm', vm.step ip .Divide span = .ok vm' ∧
       vm'.stack = rest ++ [.Number (F64.fdiv a b)] ∧
       vm'.reported =
         (if F64.feq b (.num 0) then vm.reported ++ [.ZeroDivision vm.span]
          else vm.reported)) ∧
    (b = .num 0 →
       F64.feq b (.num 0) = true ∧
       F64.isInfOrNan (F64.fdiv a b) = true ∧
       RuntimeError.get_level (.ZeroDivision vm.span) = .Warning) := by
  have hsplit : vm.stack = (rest ++ [Value.Number a]) ++ [Value.Number b] := by
    rw [hstack]; simp
  have e1 := VM.pop_concat vm (rest ++ [Value.Number a]) (.Number b) hsplit
  have e2 := VM.pop_concat { vm with stack := rest ++ [Value.Number a] } rest
    (.Number a) rfl
  have hrl : ¬ rest.length = STACK_MAX := by
    have : vm.stack.length = rest.length + 2 := by rw [hstack]; simp
    omega
  constructor
  · by_cases hb : F64.feq b (.num 0)
    · have hstep : vm.step ip .Divide span =
          .ok { vm with stack := rest ++ [.Number (F64.fdiv a b)],
                        reported := vm.reported ++ [.ZeroDivision vm.span] } := by
        simp [VM.step, e1, e2, hb, VM.report, VM.push, hrl]
      exact ⟨_, hstep, rfl, by rw [if_pos hb]⟩
    · have hstep : vm.step ip .Divide span =
          .ok { vm with stack := rest ++ [.Number (F64.fdiv a b)] } := by
        simp [VM.step, e1, e2, hb, VM.report, VM.push, hrl]
      exact ⟨_, hstep, rfl, by rw [if_neg hb]⟩
  · intro hb0
    subst hb0
    refine ⟨by decide, ?_, rfl⟩
    cases a with
    | num q =>
        simp only [F64.fdiv]
        by_cases hq : q = 0 <;> simp [hq, F64.isInfOrNan]
    | inf s => simp [F64.fdiv, F64.isInfOrNan]
    | nan => simp [F64.fdiv, F64.isInfOrNan]

/-- C6 witness: `5 / 0` pushes `+inf` and reports the warning. -/
theorem C6_divide_by_zero_witness :
    (vmDivState.stack = [] ++ [.Number (.num 5), .Number (.num 0)] ∧
     vmDivState.stack.length ≤ STACK_MAX) ∧
    ((∃ vm', vmDivState.step 1 .Divide sp0 = .ok vm' ∧
       vm'.stack = [] ++ [.Number (F64.fdiv (.num 5) (.num 0))] ∧
       vm'.reported =
         (if F64.feq (.num 0) (.num 0) then
            vmDivState.reported ++ [.ZeroDivision vmDivState.span]
          else vmDivState.reported)) ∧
     ((.num 0 : F64) = .num 0 →
       F64.feq (.num 0) (.num 0) = true ∧
       F64.isInfOrNan (F64.fdiv (.num 5) (.num 0)) = true ∧
       RuntimeError.get_level (.ZeroDivision vmDivState.span) = .Warning)) :=
  ⟨⟨rfl, by decide⟩,
    C6_divide_by_zero_warns_and_continues vmDivState 1 sp0 [] (.num 5) (.num 0)
      rfl (by decide)⟩

/-- C7 (amended): newlines inside string literals are permitted —
scanning continues past them — but the scanner does *not* increment
its line counter for them: `Scanner::string` (via `consume_until`)
leaves `line` untouched, so tokens after a multi-line string carry the
line number the string started on. -/
theorem C7_string_newlines_do_not_bump_line (sc : Scanner) :
    ((sc.string).2).line = sc.line ∧
    (∀ (fuel : Nat) (ch : Char),
      (Scanner.consume_until fuel sc ch).line = sc.line) := by
  refine ⟨?_, fun fuel ch => Scanner.consume_until_line fuel sc ch⟩
  unfold Scanner.string
  dsimp only
  split
  · rw [Scanner.consume_until_line]
  · rw [Scanner.advance_line, Scanner.consume_until_line]

/-- C7 counterexample: scanning `"a\nb" x` — a string literal with one
embedded newline followed by an identifier — yields the identifier
token with line 1, where the claim requires line 1 + 1 = 2. -/
theorem C7_token_after_multiline_string_keeps_line :
    Scanner.tokens 20 (Scanner.mkNew "\"a\nb\" x") =
      [⟨.Str "a\nb", ⟨0, 5, 1⟩⟩, ⟨.Identifier "x", ⟨6, 7, 1⟩⟩, ⟨.EOF, ⟨7, 7, 1⟩⟩] ∧
    (1 : Nat) ≠ 1 + 1 := by
  exact ⟨rfl, by decide⟩

/-- C8: with the spec's allocation policy for functions (never
reclaimed), every function registry index stays bound to the function
it was assigned to across any sequence of registry operations, and the
natives registry — a plain vector that is only ever pushed — likewise
never loses or changes an entry. -/
theorem C8_registries_are_append_only (g : Gc LoxFunction)
    (ops : List (GcOp LoxFunction)) (i : Nat) (f : LoxFunction)
    (natives : List NativeFunction) (nops : List NativeFunction)
    (j : Nat) (nf : NativeFunction)
    (hheap : g.freeHeap = [])
    (hfun : g.data.get? i = some (some f))
    (hnat : natives.get? j = some nf) :
    (Gc.runOps functionAllocated g ops).get i = some f ∧
    (pushNativesOps natives nops).get? j = some nf := by
  obtain ⟨h1, h2⟩ := Gc.runOps_preserves ops g i f hheap hfun
  refine ⟨?_, pushNativesOps_preserves nops natives j nf hnat⟩
  have hi : i < (Gc.runOps functionAllocated g ops).data.length := by
    by_contra hc
    rw [List.get?_eq_none.2 (le_of_not_lt hc)] at h2
    exact Option.noConfusion h2
  unfold Gc.get
  rw [if_neg (by omega), h2]
  rfl

/-- C8 witness: a registry holding one function survives a push and a
free, under aliasing oracles that would allow reclamation. -/
theorem C8_registries_witness :
    (gcOneFun.freeHeap = [] ∧
     gcOneFun.data.get? 0 = some (some outerFun) ∧
     [clockNative].get? 0 = some clockNative) ∧
    ((Gc.runOps functionAllocated gcOneFun
        [.push innerFun (fun _ => 1), .free (fun _ => 0)]).get 0 = some outerFun ∧
     (pushNativesOps [clockNative] [clockNative]).get? 0 = some clockNative) :=
  ⟨⟨rfl, rfl, rfl⟩,
    C8_registries_are_append_only gcOneFun
      [.push innerFun (fun _ => 1), .free (fun _ => 0)] 0 outerFun
      [clockNative] [clockNative] 0 clockNative rfl rfl rfl⟩

/-- C9: string interning.  Pushing any two string values with equal
contents (in particular the runtime values of two equal string
literals, which reach the stack through `VM::push`) leaves two stack
entries that are the *same* interned handle, and `Value::equals` on
them is true; and `add_string` is idempotent per content: it returns
the already-registered handle, without touching the manager, whenever
the content is present. -/
theorem C9_interning_same_handle_and_equal (vm : VM) (s : String) (i1 i2 : Nat)
    (hlen : vm.stack.length + 2 ≤ STACK_MAX) :
    ∃ h vm1 vm2,
      vm.push (.Object i1 (.Str s)) = .ok vm1 ∧
      vm1.push (.Object i2 (.Str s)) = .ok vm2 ∧
      vm2.stack = vm.stack ++ [.Object h (.Str s), .Object h (.Str s)] ∧
      Value.equals (.Object h (.Str s)) (.Object h (.Str s)) = true ∧
      (∀ (m : MemManager) (str : String) (hdl : Nat),
        m.strings.lookup str = some hdl → m.add_string str = (hdl, m)) := by
  have h1 : ¬ vm.stack.length = STACK_MAX := by omega
  have h2 : ¬ vm.stack.length + 1 = STACK_MAX := by omega
  have heq : ∀ hh : Nat,
      Value.equals (.Object hh (.Str s)) (.Object hh (.Str s)) = true := by
    intro hh
    simp [Value.equals]
  cases hcase : vm.objects.strings.lookup s with
  | some h0 =>
      have e1 : vm.push (.Object i1 (.Str s)) =
          .ok { vm with stack := vm.stack ++ [.Object h0 (.Str s)] } := by
        simp [VM.push, h1, MemManager.add_string, hcase]
      have e2 : ({ vm with stack := vm.stack ++ [.Object h0 (.Str s)] } : VM).push
            (.Object i2 (.Str s)) =
          .ok { vm with stack := (vm.stack ++ [.Object h0 (.Str s)]) ++ [.Object h0 (.Str s)] } := by
        simp [VM.push, MemManager.add_string, hcase, h2]
      exact ⟨h0, _, _, e1, e2, by simp, heq h0, MemManager.add_string_idem⟩
  | none =>
      have e1 : vm.push (.Object i1 (.Str s)) =
          .ok { vm with
                  stack := vm.stack ++ [.Object vm.objects.nextId (.Str s)]
                  objects :=
                    { strings := (s, vm.objects.nextId) :: vm.objects.strings
                      objects := vm.objects.objects ++ [vm.objects.nextId]
                      nextId := vm.objects.nextId + 1 } } := by
        simp [VM.push, h1, MemManager.add_string, hcase]
      have e2 : ({ vm with
                  stack := vm.stack ++ [.Object vm.objects.nextId (.Str s)]
                  objects :=
                    { strings := (s, vm.objects.nextId) :: vm.objects.strings
                      objects := vm.objects.objects ++ [vm.objects.nextId]
                      nextId := vm.objects.nextId + 1 } } : VM).push
            (.Object i2 (.Str s)) =
          .ok { vm with
                  stack := (vm.stack ++ [.Object vm.objects.nextId (.Str s)]) ++
                    [.Object vm.objects.nextId (.Str s)]
                  objects :=
                    { strings := (s, vm.objects.nextId) :: vm.objects.strings
                      objects := vm.objects.objects ++ [vm.objects.nextId]
                      nextId := vm.objects.nextId + 1 } } := by
        simp [VM.push, MemManager.add_string, h2, List.lookup]
      exact ⟨vm.objects.nextId, _, _, e1, e2, by simp, heq _, MemManager.add_string_idem⟩

/-- C9 witness: two pushes of the literal `"hi"` onto a fresh VM. -/
theorem C9_interning_witness :
    vmInternState.stack.length + 2 ≤ STACK_MAX ∧
    (∃ h vm1 vm2,
      vmInternState.push (.Object 3 (.Str "hi")) = .ok vm1 ∧
      vm1.push (.Object 4 (.Str "hi")) = .ok vm2 ∧
      vm2.stack = vmInternState.stack ++ [.Object h (.Str "hi"), .Object h (.Str "hi")] ∧
      Value.equals (.Object h (.Str "hi")) (.Object h (.Str "hi")) = true ∧
      (∀ (m : MemManager) (str : String) (hdl : Nat),
        m.strings.lookup str = some hdl → m.add_string str = (hdl, m))) :=
  ⟨by decide, C9_interning_same_handle_and_equal vmInternState "hi" 3 4 (by decide)⟩

/-- C10: when the top frame's `ip` is at or beyond its chunk's length,
instruction fetch (`VM::advance`) returns `None` — `Chunk::get`'s
bounds check fires, no out-of-bounds access, panic or runtime error —
and the interpreter loop breaks and returns `Ok`. -/
theorem C10_ip_past_end_is_normal_halt (vm : VM) (frame : CallFrame)
    (rest : List CallFrame) (fuel : Nat)
    (hframes : vm.frames = rest ++ [frame])
    (hip : frame.function.func.chunk.len ≤ frame.ip) :
    vm.advance = .ok none ∧ VM.interpret (fuel + 1) vm = .ok := by
  have hget : frame.function.func.chunk.get frame.ip = none := by
    unfold Chunk.get
    rw [if_pos hip]
  have hadv : vm.advance = .ok none := by
    unfold VM.advance
    rw [hframes]
    simp only [List.getLast?_concat, hget]
  refine ⟨hadv, ?_⟩
  unfold VM.interpret
  rw [hadv]

/-- C10 witness: a frame over an empty chunk halts immediately. -/
theorem C10_halt_witness :
    (vmHaltState.frames = [] ++ [⟨LoxClosure.mkNew outerFun, 0, 0⟩] ∧
     (⟨LoxClosure.mkNew outerFun, 0, 0⟩ : CallFrame).function.func.chunk.len ≤ 0) ∧
    (vmHaltState.advance = .ok none ∧ VM.interpret 5 vmHaltState = .ok) :=
  ⟨⟨rfl, by decide⟩,
    C10_ip_past_end_is_normal_halt vmHaltState ⟨LoxClosure.mkNew outerFun, 0, 0⟩ [] 4
      rfl (by decide)⟩

end RLox
